import Mathlib

/-
  Verification development for the SPBTLE-RF HCI transport layer
  (SimpleBlueNRG_HCI/hci.c).

  The C code manages a fixed pool of 5 receive buffers, a FIFO receive
  queue, a reader drain loop fed by a hardware wake signal, an event
  drain (HCI_Process) and a synchronous request/response engine
  (hci_send_req).  The shallow embedding below models buffers as records
  carrying an identity, the two intrusive lists as Lean lists, and each
  operation as a pure state-transforming function.  Operations that touch
  the shared lists additionally emit a trace of critical-section actions
  (Disable_SPI_IRQ / Enable_SPI_IRQ / shared-list mutation / HCI_Isr /
  event-callback) so that the interrupt-masking discipline can be stated.
-/

/-- hci.c line 45: HCI_READ_PACKET_NUM_MAX, the pool capacity. -/
def HCI_READ_PACKET_NUM_MAX : Nat := 5

/-- Packet-type marker for event packets (hci_const.h, standard HCI value). -/
def HCI_EVENT_PKT : Nat := 0x04

/-- Event header size in bytes (hci_const.h, standard HCI value). -/
def HCI_EVENT_HDR_SIZE : Nat := 2

/-- Command-status event code (hci_const.h, standard HCI value). -/
def EVT_CMD_STATUS : Nat := 0x0F

/-- Command-complete event code (hci_const.h, standard HCI value). -/
def EVT_CMD_COMPLETE : Nat := 0x0E

/-- LE meta event code (hci_const.h, standard HCI value). -/
def EVT_LE_META_EVENT : Nat := 0x3E

/-- Hardware-error event code (hci_const.h, standard HCI value). -/
def EVT_HARDWARE_ERROR : Nat := 0x10

/-- Size of the command-complete header skipped before the payload. -/
def EVT_CMD_COMPLETE_SIZE : Nat := 3

/-- cmd_opcode_pack(ogf, ocf) = (ocf & 0x03ff) | (ogf << 10), as uint16. -/
def cmd_opcode_pack (ogf ocf : Nat) : Nat :=
  ((ocf &&& 0x03ff) ||| (ogf <<< 10)) % 65536

/-- One tHciDataPacket: buffer identity (index in hciReadPacketBuffer),
the byte buffer last read into it, and its data_len field. -/
structure HciPacket where
  id : Nat
  dataBuff : List Nat
  data_len : Nat
deriving DecidableEq, Repr

/-- The global state of hci.c: the free-packet pool, the receive queue,
the reader-thread pid (-1 when not yet created) and a ghost counter of
how many reader tasks were ever spawned. -/
structure HciState where
  pool : List HciPacket
  rxQueue : List HciPacket
  threadPid : Int
  threadsSpawned : Nat
deriving DecidableEq, Repr

/-- Critical-section actions emitted by the operations:
Disable_SPI_IRQ, Enable_SPI_IRQ, a mutation of the shared pool or
receive queue, a call to HCI_Isr, and the HCI_Event_CB callback. -/
inductive Act
  | disable
  | enable
  | mutShared
  | isr
  | callback
deriving DecidableEq, Repr

/-- The five statically allocated packet buffers, in index order. -/
def hciReadPacketBuffer : List HciPacket :=
  (List.range HCI_READ_PACKET_NUM_MAX).map (fun i => ⟨i, [], 0⟩)

/-- The pristine boot state before HCI_Init ever ran: empty list heads,
thread_pid = -1. -/
def bootState : HciState := ⟨[], [], -1, 0⟩

/-- Modelled from the spec: thread_create (RIOT, not under src/) starts
the reader task and returns its non-negative pid. -/
def thread_create_pid : Int := 1

/-- HCI_Init (hci.c lines 69-88): re-initialize both list heads, insert
all five buffers into the pool, and create the reader thread only if
thread_pid is still -1. -/
def HCI_Init (s : HciState) : HciState :=
  if s.threadPid = -1 then
    { pool := hciReadPacketBuffer, rxQueue := [],
      threadPid := thread_create_pid, threadsSpawned := s.threadsSpawned + 1 }
  else
    { pool := hciReadPacketBuffer, rxQueue := [],
      threadPid := s.threadPid, threadsSpawned := s.threadsSpawned }

/-- Byte access into a packet buffer (reads past the written bytes yield
0 in the model; the C code would read stale buffer memory there). -/
def byteAt (l : List Nat) (i : Nat) : Nat := l.getD i 0

/-- Little-endian 16-bit read at offset i. -/
def word16At (l : List Nat) (i : Nat) : Nat := byteAt l i + 256 * byteAt l (i + 1)

/-- HCI_verify (hci.c lines 99-110): 0 when the packet type is
HCI_EVENT_PKT and the declared parameter length matches
data_len - (1 + HCI_EVENT_HDR_SIZE) (uint8 arithmetic); 1 for a wrong
type, 2 for a length mismatch. -/
def HCI_verify (p : HciPacket) : Nat :=
  if byteAt p.dataBuff 0 ≠ HCI_EVENT_PKT then 1
  else if byteAt p.dataBuff 2 ≠ (p.data_len + 256 - (1 + HCI_EVENT_HDR_SIZE)) % 256 then 2
  else 0

/-- The drain loop of HCI_Reader_Thread (hci.c lines 164-188) for one
wake.  The transport is a trace of read results: BlueNRG_DataPresent()
holds while the trace is non-empty, and BlueNRG_SPI_Read_All consumes
the head and returns its bytes (an empty element is a zero-byte read).
Returns the new state and the part of the trace never read (the loop
breaks with data still present when the pool is exhausted). -/
def HCI_Reader_drain : List (List Nat) → HciState → HciState × List (List Nat)
  | [], s => (s, [])
  | r :: rest, s =>
    match s.pool with
    | [] => (s, r :: rest)
    | b :: ps =>
      let dl := r.length % 256
      if dl > 0 then
        let b2 : HciPacket := { id := b.id, dataBuff := r, data_len := dl }
        if HCI_verify b2 = 0 then
          HCI_Reader_drain rest { s with pool := ps, rxQueue := s.rxQueue ++ [b2] }
        else
          HCI_Reader_drain rest { s with pool := b2 :: ps }
      else
        HCI_Reader_drain rest { s with pool := b :: ps }

/-- Loop body of HCI_Process (hci.c lines 119-127): repeatedly dequeue
the head of the receive queue (masked), run the callback (unmasked),
return the buffer to the pool tail (masked). -/
def hciProcessAux : List HciPacket → List HciPacket → List HciPacket × List Act
  | pool, [] => (pool, [Act.isr, Act.enable])
  | pool, p :: rest =>
    let q := hciProcessAux (pool ++ [p]) rest
    (q.1, Act.mutShared :: Act.enable :: Act.callback :: Act.disable :: Act.mutShared :: q.2)

/-- HCI_Process (hci.c lines 112-132): drain the receive queue through
the event callback, then explicitly re-service the interrupt. -/
def HCI_Process (s : HciState) : HciState × List Act :=
  let q := hciProcessAux s.pool s.rxQueue
  ({ s with pool := q.1, rxQueue := [] }, Act.disable :: q.2)

/-- move_list (hci.c lines 221-229): repeatedly remove the tail of src
and insert it at the head of dest, so src ends up spliced in front of
dest in its original order. -/
def move_list (dest src : List HciPacket) : List HciPacket :=
  src.reverse.foldl (fun d x => x :: d) dest

/-- Loop of free_event_list (hci.c lines 238-244), with fuel: while the
pool holds fewer than HCI_READ_PACKET_NUM_MAX/2 buffers, move the head
of the receive queue to the pool tail and call HCI_Isr.  Returns the
new state, the eviction count and the emitted actions; none when the
head removal would act on an empty receive queue (undefined behaviour
in the C list implementation) or fuel runs out. -/
def free_event_list_loop : Nat → HciState → Option (HciState × Nat × List Act)
  | 0, _ => none
  | fuel + 1, s =>
    if s.pool.length < HCI_READ_PACKET_NUM_MAX / 2 then
      match s.rxQueue with
      | [] => none
      | p :: rest =>
        match free_event_list_loop fuel { s with pool := s.pool ++ [p], rxQueue := rest } with
        | none => none
        | some (s2, k, tr) =>
          some (s2, k + 1, Act.mutShared :: Act.mutShared :: Act.isr :: tr)
    else
      some (s, 0, [])

/-- free_event_list (hci.c lines 232-247): the eviction loop wrapped in
Disable_SPI_IRQ / Enable_SPI_IRQ. -/
def free_event_list (s : HciState) : Option (HciState × Nat × List Act) :=
  match free_event_list_loop HCI_READ_PACKET_NUM_MAX s with
  | none => none
  | some (s2, k, tr) => some (s2, k, Act.disable :: (tr ++ [Act.enable]))

/-- The value free_event_list computes, projected out of the Option. -/
def fevOut (s : HciState) : HciState × Nat × List Act :=
  (free_event_list s).getD (s, 0, [])

/-- The caller-supplied request of hci_send_req: opcode group and
command fields, the expected event, and the output capacity r->rlen. -/
structure HciRequest where
  ogf : Nat
  ocf : Nat
  event : Nat
  rlen : Int
deriving DecidableEq, Repr

/-- Which exit of hci_send_req was taken.  All failure reasons return
-1 in the C code; the reason records the cause (spec taxonomy:
Timeout, ProtocolMismatch, DeviceError, DeviceFatal). -/
inductive ExitReason
  | timeout
  | protoMismatch
  | statusError
  | hwError
  | matched
  | asyncSent
deriving DecidableEq, Repr

/-- Result of hci_send_req: the C return value, the exit cause, the
final pool and receive queue, the final r->rlen and the bytes copied to
r->rparam, plus ghost observations: the packets moved to the temporary
holding queue (in order), the receive-queue suffix never dequeued, the
number of packets dequeued, the available payload length/bytes of the
matched event, the poll time at exit, and the action trace. -/
structure SendResult where
  ret : Int
  reason : ExitReason
  pool : List HciPacket
  rxQueue : List HciPacket
  rlenOut : Int
  rparam : List Nat
  setAside : List HciPacket
  remaining : List HciPacket
  consumed : Nat
  availLen : Int
  availBytes : List Nat
  exitTime : Nat
  trace : List Act
deriving DecidableEq, Repr

/-- A default SendResult (used only to project Options). -/
def sendResultDefault : SendResult :=
  { ret := 0, reason := ExitReason.asyncSent, pool := [], rxQueue := [],
    rlenOut := 0, rparam := [], setAside := [], remaining := [], consumed := 0,
    availLen := 0, availBytes := [], exitTime := 0, trace := [] }

/-- hci.c lines 270-272: the minimum effective timeout fix-up
`if(to == 0) to = 1;`. -/
def effective_timeout (tmo : Int) : Int := if tmo = 0 then 1 else tmo

/-- One arm of the event switch in hci_send_req (hci.c lines
304-352): fail the request, succeed with a given available payload
length and payload bytes, or set the packet aside and keep polling. -/
inductive StepDecision
  | failed (why : ExitReason)
  | done (aLen : Int) (aBytes : List Nat)
  | setAside
deriving DecidableEq, Repr

/-- The classification switch of hci_send_req (hci.c lines 297-353):
given the packed opcode and the expected event, decide what the
dequeued packet means for the pending request.  ptr and len are the
payload cursor and remaining length set up at lines 301-302. -/
def classify (opcode expectedEvt : Nat) (p : HciPacket) : StepDecision :=
  let ptr := p.dataBuff.drop (1 + HCI_EVENT_HDR_SIZE)
  let len : Int := (p.data_len : Int) - (1 + HCI_EVENT_HDR_SIZE)
  if byteAt p.dataBuff 0 = HCI_EVENT_PKT then
    let evt := byteAt p.dataBuff 1
    if evt = EVT_CMD_STATUS then
      if word16At ptr 2 ≠ opcode then StepDecision.failed ExitReason.protoMismatch
      else if expectedEvt ≠ EVT_CMD_STATUS then
        if byteAt ptr 0 ≠ 0 then StepDecision.failed ExitReason.statusError
        else StepDecision.setAside
      else StepDecision.done len ptr
    else if evt = EVT_CMD_COMPLETE then
      if word16At ptr 1 ≠ opcode then StepDecision.failed ExitReason.protoMismatch
      else StepDecision.done (len - EVT_CMD_COMPLETE_SIZE) (ptr.drop EVT_CMD_COMPLETE_SIZE)
    else if evt = EVT_LE_META_EVENT then
      if byteAt ptr 0 ≠ expectedEvt then StepDecision.setAside
      else StepDecision.done (len - 1) (ptr.drop 1)
    else if evt = EVT_HARDWARE_ERROR then StepDecision.failed ExitReason.hwError
    else StepDecision.setAside
  else StepDecision.setAside

/-- The synchronous polling loop of hci_send_req (hci.c lines 276-393).
Arguments: packed opcode, expected event (r->event), capacity (r->rlen),
armed timeout, current pool, temporary holding queue, receive queue and
elapsed poll time.  The inner poll (lines 282-289) checks
Timer_Expired before HCI_Queue_Empty; with an empty queue it spins
until the timer expires.  Non-answers fall through to the set-aside
code at lines 355-374; failed and done are the labels at lines
378-392. -/
def sendReqLoop (opcode expectedEvt : Nat) (cap tmo : Int) :
    List HciPacket → List HciPacket → List HciPacket → Nat → SendResult
  | pool, temp, [], elapsed =>
    { ret := -1, reason := ExitReason.timeout, pool := pool,
      rxQueue := move_list [] temp, rlenOut := cap, rparam := [],
      setAside := [], remaining := [], consumed := 0,
      availLen := 0, availBytes := [], exitTime := max elapsed tmo.toNat,
      trace := List.replicate temp.length Act.mutShared ++ [Act.enable] }
  | pool, temp, p :: rest, elapsed =>
    if tmo ≤ (elapsed : Int) then
      { ret := -1, reason := ExitReason.timeout, pool := pool,
        rxQueue := move_list (p :: rest) temp, rlenOut := cap, rparam := [],
        setAside := [], remaining := p :: rest, consumed := 0,
        availLen := 0, availBytes := [], exitTime := elapsed,
        trace := List.replicate temp.length Act.mutShared ++ [Act.enable] }
    else
      match classify opcode expectedEvt p with
      | StepDecision.failed why =>
        { ret := -1, reason := why, pool := p :: pool,
          rxQueue := move_list rest temp, rlenOut := cap, rparam := [],
          setAside := [], remaining := rest, consumed := 1,
          availLen := 0, availBytes := [], exitTime := elapsed,
          trace := [Act.disable, Act.mutShared, Act.mutShared] ++
            List.replicate temp.length Act.mutShared ++ [Act.enable] }
      | StepDecision.done aLen aBytes =>
        { ret := 0, reason := ExitReason.matched, pool := p :: pool,
          rxQueue := move_list rest temp, rlenOut := min aLen cap,
          rparam := aBytes.take (min aLen cap).toNat,
          setAside := [], remaining := rest, consumed := 1,
          availLen := aLen, availBytes := aBytes.take aLen.toNat,
          exitTime := elapsed,
          trace := [Act.disable, Act.mutShared, Act.mutShared] ++
            List.replicate temp.length Act.mutShared ++ [Act.enable] }
      | StepDecision.setAside =>
        if pool.isEmpty && rest.isEmpty then
          let q := sendReqLoop opcode expectedEvt cap tmo (pool ++ [p]) temp rest elapsed
          { q with consumed := q.consumed + 1,
                   trace := [Act.disable, Act.mutShared, Act.mutShared,
                             Act.isr, Act.enable] ++ q.trace }
        else
          let q := sendReqLoop opcode expectedEvt cap tmo pool (temp ++ [p]) rest elapsed
          { q with setAside := p :: q.setAside, consumed := q.consumed + 1,
                   trace := [Act.disable, Act.mutShared, Act.isr, Act.enable] ++ q.trace }

/-- hci_send_req (hci.c lines 249-393): evict via free_event_list, send
the command, return immediately in async mode, otherwise arm the
(fixed-up) timeout and run the polling loop.  defaultTimeout stands for
the DEFAULT_TIMEOUT constant of hci_const.h (not under src/); none is
returned only when free_event_list would corrupt an empty list. -/
def hci_send_req (r : HciRequest) (defaultTimeout : Int) (async : Bool)
    (s : HciState) : Option SendResult :=
  let opcode := cmd_opcode_pack r.ogf r.ocf
  match free_event_list s with
  | none => none
  | some (s1, _, ftr) =>
    if async then
      some { ret := 0, reason := ExitReason.asyncSent, pool := s1.pool,
             rxQueue := s1.rxQueue, rlenOut := r.rlen, rparam := [],
             setAside := [], remaining := s1.rxQueue, consumed := 0,
             availLen := 0, availBytes := [], exitTime := 0, trace := ftr }
    else
      let tmo := effective_timeout defaultTimeout
      let out := sendReqLoop opcode r.event r.rlen tmo s1.pool [] s1.rxQueue 0
      some { out with trace := ftr ++ out.trace }

/-! ### Basic list and multiset helpers -/

lemma foldl_cons_eq (l dest : List HciPacket) :
    l.foldl (fun d x => x :: d) dest = l.reverse ++ dest := by
  induction l generalizing dest with
  | nil => simp
  | cons a l ih => simp [List.foldl_cons, ih, List.reverse_cons, List.append_assoc]

/-- move_list splices src, order-preserved, in front of dest. -/
lemma move_list_eq (dest src : List HciPacket) : move_list dest src = src ++ dest := by
  simp [move_list, foldl_cons_eq]

/-- The multiset of buffer identities held by a list. -/
def bufIds (l : List HciPacket) : Multiset Nat := (l.map HciPacket.id : List Nat)

lemma bufIds_nil : bufIds [] = 0 := rfl

lemma bufIds_cons (p : HciPacket) (l : List HciPacket) :
    bufIds (p :: l) = {p.id} + bufIds l := by
  simp [bufIds]

lemma bufIds_append (a b : List HciPacket) :
    bufIds (a ++ b) = bufIds a + bufIds b := by
  simp [bufIds]

/-! ### HCI_Process structure -/

lemma hciProcessAux_fst : ∀ (rx pool : List HciPacket),
    (hciProcessAux pool rx).1 = pool ++ rx := by
  intro rx
  induction rx with
  | nil => intro pool; simp [hciProcessAux]
  | cons p rest ih => intro pool; simp [hciProcessAux, ih]

/-! ### Reader drain: conservation and pid preservation -/

lemma drain_conserv : ∀ (tr : List (List Nat)) (s : HciState),
    bufIds (HCI_Reader_drain tr s).1.pool + bufIds (HCI_Reader_drain tr s).1.rxQueue
      = bufIds s.pool + bufIds s.rxQueue := by
  intro tr
  induction tr with
  | nil => intro s; simp [HCI_Reader_drain]
  | cons r rest ih =>
    intro s
    cases hp : s.pool with
    | nil => simp [HCI_Reader_drain, hp]
    | cons b ps =>
      by_cases h1 : r.length % 256 > 0
      · by_cases h2 :
          HCI_verify { id := b.id, dataBuff := r, data_len := r.length % 256 } = 0
        · simp only [HCI_Reader_drain, hp, h1, if_pos, h2, if_true]
          rw [ih]
          simp [hp, bufIds_append, bufIds_cons]
          abel
        · simp only [HCI_Reader_drain, hp, h1, if_pos, h2, if_false]
          rw [ih]
          simp [hp, bufIds_cons]
      · simp only [HCI_Reader_drain, hp, h1, if_false]
        rw [ih]

lemma drain_pid : ∀ (tr : List (List Nat)) (s : HciState),
    (HCI_Reader_drain tr s).1.threadPid = s.threadPid := by
  intro tr
  induction tr with
  | nil => intro s; simp [HCI_Reader_drain]
  | cons r rest ih =>
    intro s
    cases hp : s.pool with
    | nil => simp [HCI_Reader_drain, hp]
    | cons b ps =>
      by_cases h1 : r.length % 256 > 0
      · by_cases h2 :
          HCI_verify { id := b.id, dataBuff := r, data_len := r.length % 256 } = 0
        · simp only [HCI_Reader_drain, hp, h1, if_pos, h2, if_true]
          rw [ih]
        · simp only [HCI_Reader_drain, hp, h1, if_pos, h2, if_false]
          rw [ih]
      · simp only [HCI_Reader_drain, hp, h1, if_false]
        rw [ih]

/-! ### free_event_list: closed-form behaviour -/

/-- Number of forced evictions free_event_list performs (pool capacity
5, threshold 5/2 = 2). -/
def fevK (s : HciState) : Nat := 2 - min 2 s.pool.length

lemma fel_loop_spec : ∀ (fuel : Nat) (s : HciState),
    2 - s.pool.length < fuel →
    2 ≤ s.pool.length + s.rxQueue.length →
    free_event_list_loop fuel s =
      some ({ s with pool := s.pool ++ s.rxQueue.take (fevK s),
                     rxQueue := s.rxQueue.drop (fevK s) },
            fevK s,
            (List.replicate (fevK s) [Act.mutShared, Act.mutShared, Act.isr]).flatten) := by
  intro fuel
  induction fuel with
  | zero =>
    intro s hf _
    omega
  | succ n ih =>
    intro s hf hsum
    obtain ⟨pool, rx, pid, sp⟩ := s
    simp only at hf hsum ⊢
    by_cases hc : pool.length < 2
    · cases rx with
      | nil =>
        exfalso
        simp at hsum
        omega
      | cons p rest =>
        have hk : fevK ⟨pool, p :: rest, pid, sp⟩ =
            fevK ⟨pool ++ [p], rest, pid, sp⟩ + 1 := by
          simp only [fevK, List.length_append, List.length_cons, List.length_nil,
                     Nat.zero_add]
          rw [min_eq_right (by omega : pool.length ≤ 2),
              min_eq_right (by omega : pool.length + 1 ≤ 2)]
          omega
        simp only [free_event_list_loop, HCI_READ_PACKET_NUM_MAX]
        rw [if_pos (by simpa using hc)]
        rw [ih ⟨pool ++ [p], rest, pid, sp⟩
            (by simp only [List.length_append, List.length_cons]; omega)
            (by simp only [List.length_cons] at hsum
                simp only [List.length_append, List.length_cons]
                omega)]
        rw [hk]
        simp [List.take_succ_cons, List.drop_succ_cons, List.append_assoc,
              List.replicate_succ]
    · simp only [free_event_list_loop, HCI_READ_PACKET_NUM_MAX]
      rw [if_neg (by simpa using hc)]
      have hk : fevK ⟨pool, rx, pid, sp⟩ = 0 := by
        simp only [fevK]
        omega
      rw [hk]
      simp

/-- free_event_list on any state holding at least 2 buffers in total:
it evicts fevK s packets, head of queue to tail of pool, servicing the
interrupt once per eviction, and cannot hit an empty-queue removal. -/
lemma free_event_list_spec (s : HciState)
    (hsum : 2 ≤ s.pool.length + s.rxQueue.length) :
    free_event_list s =
      some ({ s with pool := s.pool ++ s.rxQueue.take (fevK s),
                     rxQueue := s.rxQueue.drop (fevK s) },
            fevK s,
            Act.disable ::
              ((List.replicate (fevK s) [Act.mutShared, Act.mutShared, Act.isr]).flatten
                ++ [Act.enable])) := by
  rw [free_event_list,
      fel_loop_spec HCI_READ_PACKET_NUM_MAX s (by simp [HCI_READ_PACKET_NUM_MAX]; omega) hsum]

/-! ### The critical-section discipline predicate -/

/-- disciplinedFrom d acts: scanning acts with current Disable-nesting
depth d, every shared mutation happens at depth > 0, every enable has a
matching disable, and the trace ends with notifications enabled. -/
def disciplinedFrom : Nat → List Act → Bool
  | d, [] => d == 0
  | d, Act.disable :: r => disciplinedFrom (d + 1) r
  | d, Act.enable :: r => (d != 0) && disciplinedFrom (d - 1) r
  | d, Act.mutShared :: r => (d != 0) && disciplinedFrom d r
  | d, Act.isr :: r => disciplinedFrom d r
  | d, Act.callback :: r => disciplinedFrom d r

lemma disc_replicate_mut (k : Nat) : ∀ (d : Nat) (rest : List Act), d ≠ 0 →
    disciplinedFrom d (List.replicate k Act.mutShared ++ rest) = disciplinedFrom d rest := by
  induction k with
  | zero => intro d rest _; simp
  | succ n ih =>
    intro d rest hd
    simp only [List.replicate_succ, List.cons_append, disciplinedFrom, List.append_eq]
    rw [ih d rest hd]
    simp [hd]

lemma disc_timeout_trace (k : Nat) :
    disciplinedFrom 0 (List.replicate k Act.mutShared ++ [Act.enable]) = false := by
  cases k with
  | zero => simp [disciplinedFrom]
  | succ n => simp [List.replicate_succ, disciplinedFrom]

lemma disc_exit_trace (k : Nat) (d : Nat) (hd : d ≠ 0) :
    disciplinedFrom d (List.replicate k Act.mutShared ++ [Act.enable])
      = disciplinedFrom (d - 1) [] := by
  rw [disc_replicate_mut k d [Act.enable] hd]
  simp [disciplinedFrom, hd]

/-- The free_event_list loop trace is depth-neutral and clean. -/
lemma fel_trace_disc (k : Nat) : ∀ (d : Nat) (ys : List Act), d ≠ 0 →
    disciplinedFrom d
        ((List.replicate k [Act.mutShared, Act.mutShared, Act.isr]).flatten ++ ys)
      = disciplinedFrom d ys := by
  induction k with
  | zero => intro d ys _; simp
  | succ n ih =>
    intro d ys hd
    simp only [List.replicate_succ, List.flatten_cons, List.cons_append,
               List.append_assoc, disciplinedFrom, List.append_eq, List.nil_append]
    rw [ih d ys hd]
    simp [hd]

/-- The whole free_event_list trace returns the depth to 0 cleanly. -/
lemma fev_trace_disc (s : HciState) (ys : List Act) :
    disciplinedFrom 0
        ((Act.disable ::
          ((List.replicate (fevK s) [Act.mutShared, Act.mutShared, Act.isr]).flatten
            ++ [Act.enable])) ++ ys)
      = disciplinedFrom 0 ys := by
  simp only [List.cons_append, disciplinedFrom, List.append_assoc, List.append_eq,
             List.nil_append, Nat.zero_add]
  rw [fel_trace_disc (fevK s) 1 (Act.enable :: ys) (by omega)]
  simp [disciplinedFrom]

/-- HCI_Process's loop trace is disciplined when entered at depth 1. -/
lemma processAux_disc : ∀ (rx pool : List HciPacket),
    disciplinedFrom 1 (hciProcessAux pool rx).2 = true := by
  intro rx
  induction rx with
  | nil => intro pool; simp [hciProcessAux, disciplinedFrom]
  | cons p rest ih =>
    intro pool
    simp only [hciProcessAux, disciplinedFrom]
    rw [ih (pool ++ [p])]
    simp

/-! ### sendReqLoop: ordering of set-aside packets (splice-back) -/

lemma sendReqLoop_splice (op ev : Nat) (cap tmo : Int) :
    ∀ (rx pool temp : List HciPacket) (el : Nat),
      (sendReqLoop op ev cap tmo pool temp rx el).rxQueue
          = temp ++ (sendReqLoop op ev cap tmo pool temp rx el).setAside
              ++ (sendReqLoop op ev cap tmo pool temp rx el).remaining
        ∧ (sendReqLoop op ev cap tmo pool temp rx el).setAside.Sublist rx
        ∧ (sendReqLoop op ev cap tmo pool temp rx el).remaining
            = rx.drop (sendReqLoop op ev cap tmo pool temp rx el).consumed := by
  intro rx
  induction rx with
  | nil =>
    intro pool temp el
    simp [sendReqLoop, move_list_eq]
  | cons p rest ih =>
    intro pool temp el
    simp only [sendReqLoop]
    split
    · simp [move_list_eq]
    · cases hcl : classify op ev p with
      | failed why =>
        simp [hcl, move_list_eq]
      | done aLen aBytes =>
        simp [hcl, move_list_eq]
      | setAside =>
        simp only [hcl]
        split
        · obtain ⟨ih1, ih2, ih3⟩ := ih (pool ++ [p]) temp el
          refine ⟨ih1, List.Sublist.cons p ih2, ?_⟩
          simp [ih3]
        · obtain ⟨ih1, ih2, ih3⟩ := ih pool (temp ++ [p]) el
          refine ⟨?_, List.Sublist.cons₂ p ih2, ?_⟩
          · simp only [ih1, List.append_assoc, List.cons_append, List.nil_append]
          · simp [ih3]

/-! ### sendReqLoop: buffer conservation -/

lemma sendReqLoop_conserv (op ev : Nat) (cap tmo : Int) :
    ∀ (rx pool temp : List HciPacket) (el : Nat),
      bufIds (sendReqLoop op ev cap tmo pool temp rx el).pool
          + bufIds (sendReqLoop op ev cap tmo pool temp rx el).rxQueue
        = bufIds pool + bufIds temp + bufIds rx := by
  intro rx
  induction rx with
  | nil =>
    intro pool temp el
    simp [sendReqLoop, move_list_eq, bufIds_append, bufIds_nil]
  | cons p rest ih =>
    intro pool temp el
    simp only [sendReqLoop]
    split
    · simp only [move_list_eq]
      rw [bufIds_append]
      abel
    · cases hcl : classify op ev p with
      | failed why =>
        simp only [hcl, move_list_eq]
        rw [bufIds_cons, bufIds_append, bufIds_cons]
        abel
      | done aLen aBytes =>
        simp only [hcl, move_list_eq]
        rw [bufIds_cons, bufIds_append, bufIds_cons]
        abel
      | setAside =>
        simp only [hcl]
        split
        · rw [ih (pool ++ [p]) temp el, bufIds_append, bufIds_cons]
          simp only [bufIds_cons, bufIds_nil, add_zero]
          abel
        · rw [ih pool (temp ++ [p]) el, bufIds_append, bufIds_cons]
          simp only [bufIds_cons, bufIds_nil, add_zero]
          abel

/-! ### sendReqLoop: truncation on success, timeout timing, discipline -/

/-- The classification switch only fails with a protocol mismatch, a
device-reported status error, or the hardware-error event. -/
lemma classify_failed_why (op ev : Nat) (p : HciPacket) (why : ExitReason)
    (h : classify op ev p = StepDecision.failed why) :
    why = ExitReason.protoMismatch ∨ why = ExitReason.statusError
      ∨ why = ExitReason.hwError := by
  simp only [classify] at h
  repeat' split at h
  all_goals simp_all

lemma sendReqLoop_matched (op ev : Nat) (cap tmo : Int) :
    ∀ (rx pool temp : List HciPacket) (el : Nat),
      (sendReqLoop op ev cap tmo pool temp rx el).reason = ExitReason.matched →
        (sendReqLoop op ev cap tmo pool temp rx el).ret = 0
        ∧ (sendReqLoop op ev cap tmo pool temp rx el).rlenOut
            = min (sendReqLoop op ev cap tmo pool temp rx el).availLen cap
        ∧ (sendReqLoop op ev cap tmo pool temp rx el).rparam
            = (sendReqLoop op ev cap tmo pool temp rx el).availBytes.take
                (sendReqLoop op ev cap tmo pool temp rx el).rlenOut.toNat := by
  intro rx
  induction rx with
  | nil =>
    intro pool temp el h
    simp [sendReqLoop] at h
  | cons p rest ih =>
    intro pool temp el
    simp only [sendReqLoop]
    split
    · intro h; simp at h
    · cases hcl : classify op ev p with
      | failed why =>
        simp only [hcl]
        intro h
        exfalso
        have h2 : why = ExitReason.matched := h
        rcases classify_failed_why op ev p why hcl with h3 | h3 | h3 <;>
          rw [h3] at h2 <;> exact ExitReason.noConfusion h2
      | done aLen aBytes =>
        have hle : (min aLen cap).toNat ≤ aLen.toNat := by
          have h2 : min aLen cap ≤ aLen := min_le_left aLen cap
          omega
        simp only [hcl]
        intro _
        refine ⟨by simp, by simp, ?_⟩
        show List.take (min aLen cap).toNat aBytes
            = List.take (min aLen cap).toNat (List.take aLen.toNat aBytes)
        rw [List.take_take, min_eq_left hle]
      | setAside =>
        simp only [hcl]
        split
        · intro h
          exact ih (pool ++ [p]) temp el h
        · intro h
          exact ih pool (temp ++ [p]) el h

lemma sendReqLoop_timeout_time (op ev : Nat) (cap tmo : Int) (htmo : 1 ≤ tmo) :
    ∀ (rx pool temp : List HciPacket) (el : Nat),
      (sendReqLoop op ev cap tmo pool temp rx el).reason = ExitReason.timeout →
        tmo.toNat ≤ (sendReqLoop op ev cap tmo pool temp rx el).exitTime := by
  intro rx
  induction rx with
  | nil =>
    intro pool temp el _
    simp only [sendReqLoop]
    omega
  | cons p rest ih =>
    intro pool temp el
    simp only [sendReqLoop]
    split
    · intro _
      simp only
      omega
    · cases hcl : classify op ev p with
      | failed why =>
        simp only [hcl]
        intro h
        exfalso
        have h2 : why = ExitReason.timeout := h
        rcases classify_failed_why op ev p why hcl with h3 | h3 | h3 <;>
          rw [h3] at h2 <;> exact ExitReason.noConfusion h2
      | done aLen aBytes =>
        simp only [hcl]
        intro h
        exact absurd h (by simp)
      | setAside =>
        simp only [hcl]
        split
        · intro h
          exact ih (pool ++ [p]) temp el h
        · intro h
          exact ih pool (temp ++ [p]) el h

lemma sendReqLoop_disc (op ev : Nat) (cap tmo : Int) :
    ∀ (rx pool temp : List HciPacket) (el : Nat),
      disciplinedFrom 0 (sendReqLoop op ev cap tmo pool temp rx el).trace
        = ((sendReqLoop op ev cap tmo pool temp rx el).reason != ExitReason.timeout) := by
  intro rx
  induction rx with
  | nil =>
    intro pool temp el
    simp only [sendReqLoop]
    rw [disc_timeout_trace temp.length]
    simp
  | cons p rest ih =>
    intro pool temp el
    simp only [sendReqLoop]
    split
    · simp only
      rw [disc_timeout_trace temp.length]
      simp
    · cases hcl : classify op ev p with
      | failed why =>
        simp only [hcl]
        have hwhy := classify_failed_why op ev p why hcl
        rcases hwhy with h3 | h3 | h3 <;> subst h3 <;>
          simp [disciplinedFrom, disc_replicate_mut]
      | done aLen aBytes =>
        simp only [hcl]
        simp [disciplinedFrom, disc_replicate_mut]
      | setAside =>
        simp only [hcl]
        split
        · simp [disciplinedFrom, ih (pool ++ [p]) temp el]
        · simp [disciplinedFrom, ih pool (temp ++ [p]) el]

/-! ### Hardware-error classification -/

lemma classify_hwError (op ev : Nat) (p : HciPacket)
    (h0 : byteAt p.dataBuff 0 = HCI_EVENT_PKT)
    (h1 : byteAt p.dataBuff 1 = EVT_HARDWARE_ERROR) :
    classify op ev p = StepDecision.failed ExitReason.hwError := by
  simp [classify, h0, h1, HCI_EVENT_PKT, EVT_CMD_STATUS, EVT_CMD_COMPLETE,
        EVT_LE_META_EVENT, EVT_HARDWARE_ERROR]

lemma sendReqLoop_hwError (op ev : Nat) (cap tmo : Int)
    (pool temp rest : List HciPacket) (p : HciPacket) (el : Nat)
    (h0 : byteAt p.dataBuff 0 = HCI_EVENT_PKT)
    (h1 : byteAt p.dataBuff 1 = EVT_HARDWARE_ERROR)
    (ht : (el : Int) < tmo) :
    sendReqLoop op ev cap tmo pool temp (p :: rest) el =
      { ret := -1, reason := ExitReason.hwError, pool := p :: pool,
        rxQueue := move_list rest temp, rlenOut := cap, rparam := [],
        setAside := [], remaining := rest, consumed := 1,
        availLen := 0, availBytes := [], exitTime := el,
        trace := [Act.disable, Act.mutShared, Act.mutShared] ++
          List.replicate temp.length Act.mutShared ++ [Act.enable] } := by
  simp only [sendReqLoop]
  rw [if_neg (not_le.mpr ht), classify_hwError op ev p h0 h1]

/-! ### The transition system of reachable states -/

/-- State after one wake of the reader thread draining transport trace tr. -/
def drainState (tr : List (List Nat)) (s : HciState) : HciState :=
  (HCI_Reader_drain tr s).1

/-- State after one HCI_Process call. -/
def processState (s : HciState) : HciState :=
  (HCI_Process s).1

/-- State after one hci_send_req call (none if free_event_list would
corrupt an empty queue). -/
def sendState (r : HciRequest) (dto : Int) (async : Bool) (s : HciState) :
    Option HciState :=
  (hci_send_req r dto async s).map
    (fun res => { s with pool := res.pool, rxQueue := res.rxQueue })

/-- States reachable by the operations of hci.c after the first HCI_Init. -/
inductive Reachable : HciState → Prop
  | boot : Reachable (HCI_Init bootState)
  | reinit {s : HciState} : Reachable s → Reachable (HCI_Init s)
  | drain {s : HciState} (tr : List (List Nat)) :
      Reachable s → Reachable (drainState tr s)
  | process {s : HciState} : Reachable s → Reachable (processState s)
  | send {s s2 : HciState} (r : HciRequest) (dto : Int) (async : Bool) :
      Reachable s → sendState r dto async s = some s2 → Reachable s2

lemma HCI_Init_pool (s : HciState) : (HCI_Init s).pool = hciReadPacketBuffer := by
  unfold HCI_Init
  split <;> rfl

lemma HCI_Init_rxQueue (s : HciState) : (HCI_Init s).rxQueue = [] := by
  unfold HCI_Init
  split <;> rfl

lemma HCI_Init_pid (s : HciState) : (HCI_Init s).threadPid ≠ -1 := by
  unfold HCI_Init
  split
  · simp [thread_create_pid]
  · simpa using by assumption

lemma bufIds_initial :
    bufIds hciReadPacketBuffer + bufIds [] = Multiset.range HCI_READ_PACKET_NUM_MAX := by
  decide

lemma reachable_conserved {s : HciState} (h : Reachable s) :
    bufIds s.pool + bufIds s.rxQueue = Multiset.range HCI_READ_PACKET_NUM_MAX := by
  induction h with
  | boot =>
    rw [HCI_Init_pool, HCI_Init_rxQueue]
    exact bufIds_initial
  | reinit _ _ =>
    rw [HCI_Init_pool, HCI_Init_rxQueue]
    exact bufIds_initial
  | drain tr _ ih =>
    unfold drainState
    rw [drain_conserv]
    exact ih
  | process _ ih =>
    unfold processState HCI_Process
    simp only
    rw [hciProcessAux_fst, bufIds_append, bufIds_nil, add_zero]
    exact ih
  | @send s s2 r dto async _ hs ih =>
    have hlen : s.pool.length + s.rxQueue.length = HCI_READ_PACKET_NUM_MAX := by
      have hcard := congrArg Multiset.card ih
      simpa [bufIds] using hcard
    have hsum : 2 ≤ s.pool.length + s.rxQueue.length := by
      rw [hlen]; simp [HCI_READ_PACKET_NUM_MAX]
    have hevict :
        bufIds (s.pool ++ s.rxQueue.take (fevK s)) + bufIds (s.rxQueue.drop (fevK s))
          = Multiset.range HCI_READ_PACKET_NUM_MAX := by
      rw [bufIds_append, add_assoc]
      have htd : bufIds (s.rxQueue.take (fevK s)) + bufIds (s.rxQueue.drop (fevK s))
          = bufIds s.rxQueue := by
        rw [← bufIds_append, List.take_append_drop]
      rw [htd]
      exact ih
    unfold sendState at hs
    cases hh : hci_send_req r dto async s with
    | none =>
      rw [hh] at hs
      exact absurd hs (by simp)
    | some res =>
      rw [hh] at hs
      simp only [Option.map] at hs
      injection hs with hs2
      have hres : bufIds res.pool + bufIds res.rxQueue
          = Multiset.range HCI_READ_PACKET_NUM_MAX := by
        unfold hci_send_req at hh
        rw [free_event_list_spec s hsum] at hh
        simp only at hh
        cases async with
        | true =>
          rw [if_pos (show (true : Bool) = true from rfl)] at hh
          injection hh with hh2
          rw [← hh2]
          exact hevict
        | false =>
          rw [if_neg (by simp : ¬(false : Bool) = true)] at hh
          injection hh with hh2
          rw [← hh2]
          simp only
          rw [sendReqLoop_conserv]
          rw [bufIds_nil, add_zero]
          exact hevict
      rw [← hs2]
      exact hres

lemma reachable_pid {s : HciState} (h : Reachable s) : s.threadPid ≠ -1 := by
  induction h with
  | boot => exact HCI_Init_pid bootState
  | reinit _ _ => exact HCI_Init_pid _
  | drain tr _ ih =>
    unfold drainState
    rw [drain_pid]
    exact ih
  | process _ ih => exact ih
  | @send s s2 r dto async _ hs ih =>
    unfold sendState at hs
    cases hh : hci_send_req r dto async s with
    | none =>
      rw [hh] at hs
      exact absurd hs (by simp)
    | some res =>
      rw [hh] at hs
      simp only [Option.map] at hs
      injection hs with hs2
      rw [← hs2]
      exact ih

/-! ### Extraction of the synchronous hci_send_req path -/

lemma hci_send_req_sync_spec (r : HciRequest) (dto : Int) (s : HciState)
    (res : SendResult) (h : hci_send_req r dto false s = some res) :
    ∃ s1 k ftr, free_event_list s = some (s1, k, ftr)
      ∧ fevOut s = (s1, k, ftr)
      ∧ res = { sendReqLoop (cmd_opcode_pack r.ogf r.ocf) r.event r.rlen
                  (effective_timeout dto) s1.pool [] s1.rxQueue 0
                with trace := ftr ++ (sendReqLoop (cmd_opcode_pack r.ogf r.ocf) r.event
                  r.rlen (effective_timeout dto) s1.pool [] s1.rxQueue 0).trace } := by
  unfold hci_send_req at h
  cases hfev : free_event_list s with
  | none =>
    rw [hfev] at h
    exact absurd h (by simp)
  | some o =>
    obtain ⟨s1, k, ftr⟩ := o
    rw [hfev] at h
    refine ⟨s1, k, ftr, rfl, by simp [fevOut, hfev], ?_⟩
    injection h with h2
    rw [← h2]

/-! ### Claim theorems -/

/-- C1: buffer conservation.  First conjunct: in every state reachable
by HCI_Init, reader drain cycles, HCI_Process and hci_send_req, the
multiset of buffer identities held by the pool and the receive queue is
exactly {0,...,4} — every one of the N = 5 buffers is in exactly one
place.  Second conjunct: during a synchronous hci_send_req, the polling
loop preserves the combined identity multiset of pool, temporary
holding queue and receive queue (the loop-invariant form of the same
conservation, proved by induction over the loop), so no buffer is
duplicated or lost mid-operation either. -/
theorem hci_buffer_conservation :
    (∀ s : HciState, Reachable s →
        bufIds s.pool + bufIds s.rxQueue = Multiset.range HCI_READ_PACKET_NUM_MAX)
    ∧ (∀ (op ev : Nat) (cap tmo : Int) (pool temp rx : List HciPacket) (el : Nat),
        bufIds (sendReqLoop op ev cap tmo pool temp rx el).pool
            + bufIds (sendReqLoop op ev cap tmo pool temp rx el).rxQueue
          = bufIds pool + bufIds temp + bufIds rx) :=
  ⟨fun _ h => reachable_conserved h,
   fun op ev cap tmo pool temp rx el => sendReqLoop_conserv op ev cap tmo rx pool temp el⟩

/-- C1 witness: the conservation invariant evaluated right after the
first HCI_Init. -/
theorem hci_buffer_conservation_witness :
    bufIds (HCI_Init bootState).pool + bufIds (HCI_Init bootState).rxQueue
      = Multiset.range HCI_READ_PACKET_NUM_MAX :=
  hci_buffer_conservation.1 (HCI_Init bootState) Reachable.boot

/-- C2: set-aside ordering.  For every synchronous hci_send_req call
that returns, the final receive queue is exactly the set-aside packets
(in their temporary-holding-queue order) spliced in front of the
never-dequeued remainder of the post-eviction receive queue; the
set-aside packets are a subsequence of that queue (original relative
order preserved) and the remainder is the queue minus the dequeued
prefix.  This holds on every exit path: success, protocol failure,
device error, hardware error and timeout. -/
theorem hci_set_aside_ordering :
    ∀ (r : HciRequest) (dto : Int) (s : HciState) (res : SendResult),
      hci_send_req r dto false s = some res →
        res.rxQueue = res.setAside ++ res.remaining
        ∧ res.setAside.Sublist (fevOut s).1.rxQueue
        ∧ res.remaining = (fevOut s).1.rxQueue.drop res.consumed := by
  intro r dto s res h
  obtain ⟨s1, k, ftr, hfev, hfo, hres⟩ := hci_send_req_sync_spec r dto s res h
  obtain ⟨h1, h2, h3⟩ := sendReqLoop_splice (cmd_opcode_pack r.ogf r.ocf) r.event r.rlen
    (effective_timeout dto) s1.rxQueue s1.pool [] 0
  rw [hres, hfo]
  exact ⟨by simpa using h1, h2, h3⟩

/-- C2 witness input: events A (other event 0x13), B (matching command
complete) and C (other event) queued in that order. -/
def c2state : HciState :=
  ⟨[⟨3, [], 0⟩, ⟨4, [], 0⟩],
   [⟨0, [4, 19, 0], 3⟩, ⟨1, [4, 14, 7, 1, 2, 4, 1, 2, 3, 4], 10⟩, ⟨2, [4, 19, 0], 3⟩],
   1, 1⟩

/-- C2 witness result. -/
def c2res : SendResult :=
  (hci_send_req ⟨1, 2, 0, 10⟩ 10 false c2state).getD sendResultDefault

/-- C2 witness: the ordering conclusion at the concrete A/B/C queue. -/
theorem hci_set_aside_ordering_witness :
    c2res.rxQueue = c2res.setAside ++ c2res.remaining
    ∧ c2res.setAside.Sublist (fevOut c2state).1.rxQueue
    ∧ c2res.remaining = (fevOut c2state).1.rxQueue.drop c2res.consumed :=
  hci_set_aside_ordering ⟨1, 2, 0, 10⟩ 10 c2state c2res (by decide)

/-- C3 counterexample: with a full pool and transport trace
[zero-byte read, valid packet], the claim says the drain must stop at
the zero-byte read (leaving the second read unattempted and the queue
empty); the code instead recycles the buffer and keeps draining: the
whole trace is consumed and the valid packet is enqueued. -/
theorem reader_zero_byte_stop_counterexample :
    (HCI_Reader_drain [[], [4, 153, 0]] (HCI_Init bootState)).2 = []
    ∧ (HCI_Reader_drain [[], [4, 153, 0]] (HCI_Init bootState)).1.rxQueue ≠ [] := by
  decide

/-- C3 amended: on a zero-byte read the buffer is returned to the head
of the pool (pool and queue unchanged) and the drain cycle continues
with the hardware still polled — it does not stop. -/
theorem reader_zero_byte_recycle_continue :
    ∀ (s : HciState) (rest : List (List Nat)),
      s.pool ≠ [] →
      HCI_Reader_drain ([] :: rest) s = HCI_Reader_drain rest s := by
  intro s rest hp
  cases hpool : s.pool with
  | nil => exact absurd hpool hp
  | cons b ps =>
    simp only [HCI_Reader_drain, hpool]
    rw [if_neg (by simp)]
    rw [← hpool]

/-- C3 amended witness: at a full pool and one pending read after the
zero-byte read. -/
theorem reader_zero_byte_recycle_continue_witness :
    HCI_Reader_drain ([] :: [[4, 153, 0]]) (HCI_Init bootState)
      = HCI_Reader_drain [[4, 153, 0]] (HCI_Init bootState) :=
  reader_zero_byte_recycle_continue (HCI_Init bootState) [[4, 153, 0]] (by decide)

lemma count_isr_flatten (k : Nat) :
    ((List.replicate k [Act.mutShared, Act.mutShared, Act.isr]).flatten).count Act.isr
      = k := by
  induction k with
  | zero => rfl
  | succ n ih =>
    simp only [List.replicate_succ, List.flatten_cons, List.count_append, ih]
    have h1 : List.count Act.isr [Act.mutShared, Act.mutShared, Act.isr] = 1 := by decide
    omega

/-- C4: pre-send headroom.  hci_send_req (sync or async) first runs
free_event_list; for every state carrying the full complement of N = 5
buffers across pool and queue, that eviction step terminates (returns
some), migrates exactly the oldest (fevOut s).2.1 queued events from
the head of the receive queue to the tail of the pool, leaves the pool
with at least N/2 buffers, and services the interrupt (HCI_Isr) once
per forced eviction. -/
theorem hci_pre_send_headroom :
    ∀ s : HciState, s.pool.length + s.rxQueue.length = HCI_READ_PACKET_NUM_MAX →
      free_event_list s = some (fevOut s)
      ∧ (fevOut s).1.pool = s.pool ++ s.rxQueue.take (fevOut s).2.1
      ∧ (fevOut s).1.rxQueue = s.rxQueue.drop (fevOut s).2.1
      ∧ HCI_READ_PACKET_NUM_MAX / 2 ≤ (fevOut s).1.pool.length
      ∧ (fevOut s).2.2.count Act.isr = (fevOut s).2.1 := by
  intro s hlen
  have hsum : 2 ≤ s.pool.length + s.rxQueue.length := by
    rw [hlen]; simp [HCI_READ_PACKET_NUM_MAX]
  have hspec := free_event_list_spec s hsum
  have hfo : fevOut s =
      ({ s with pool := s.pool ++ s.rxQueue.take (fevK s),
                rxQueue := s.rxQueue.drop (fevK s) },
       fevK s,
       Act.disable ::
        ((List.replicate (fevK s) [Act.mutShared, Act.mutShared, Act.isr]).flatten
          ++ [Act.enable])) := by
    simp [fevOut, hspec]
  rw [hfo]
  refine ⟨by rw [hspec], rfl, rfl, ?_, ?_⟩
  · simp only [List.length_append, List.length_take, HCI_READ_PACKET_NUM_MAX]
    have hk : fevK s = 2 - min 2 s.pool.length := rfl
    rcases Nat.lt_or_ge s.pool.length 2 with hlt | hge
    · rw [hk, min_eq_right (by omega : s.pool.length ≤ 2)]
      have : s.rxQueue.length = HCI_READ_PACKET_NUM_MAX - s.pool.length := by omega
      rw [this]
      simp only [HCI_READ_PACKET_NUM_MAX]
      omega
    · rw [hk, min_eq_left hge]
      omega
  · simp only [List.count_cons, List.count_append]
    rw [count_isr_flatten]
    simp

/-- C4 witness: the headroom conclusion at the freshly initialized
state (full pool, empty queue). -/
theorem hci_pre_send_headroom_witness :
    free_event_list (HCI_Init bootState) = some (fevOut (HCI_Init bootState))
    ∧ (fevOut (HCI_Init bootState)).1.pool
        = (HCI_Init bootState).pool
            ++ (HCI_Init bootState).rxQueue.take (fevOut (HCI_Init bootState)).2.1
    ∧ (fevOut (HCI_Init bootState)).1.rxQueue
        = (HCI_Init bootState).rxQueue.drop (fevOut (HCI_Init bootState)).2.1
    ∧ HCI_READ_PACKET_NUM_MAX / 2 ≤ (fevOut (HCI_Init bootState)).1.pool.length
    ∧ (fevOut (HCI_Init bootState)).2.2.count Act.isr
        = (fevOut (HCI_Init bootState)).2.1 :=
  hci_pre_send_headroom (HCI_Init bootState) (by decide)

/-- C10: eviction safety.  Under the conservation precondition (all
N = 5 buffers split between pool and receive queue), free_event_list
returns some — its unguarded head removal never acts on an empty
receive queue — and it performs at most N/2 = 2 loop iterations. -/
theorem free_event_list_safety :
    ∀ s : HciState, s.pool.length + s.rxQueue.length = HCI_READ_PACKET_NUM_MAX →
      free_event_list s = some (fevOut s)
      ∧ (fevOut s).2.1 ≤ HCI_READ_PACKET_NUM_MAX / 2 := by
  intro s hlen
  have hsum : 2 ≤ s.pool.length + s.rxQueue.length := by
    rw [hlen]; simp [HCI_READ_PACKET_NUM_MAX]
  have hspec := free_event_list_spec s hsum
  have hfo : fevOut s =
      ({ s with pool := s.pool ++ s.rxQueue.take (fevK s),
                rxQueue := s.rxQueue.drop (fevK s) },
       fevK s,
       Act.disable ::
        ((List.replicate (fevK s) [Act.mutShared, Act.mutShared, Act.isr]).flatten
          ++ [Act.enable])) := by
    simp [fevOut, hspec]
  rw [hfo]
  refine ⟨by rw [hspec], ?_⟩
  simp only [HCI_READ_PACKET_NUM_MAX]
  have hk : fevK s = 2 - min 2 s.pool.length := rfl
  omega

/-- C10 witness: the empty-pool state with all five buffers queued,
the worst case for the unguarded removals (two evictions). -/
theorem free_event_list_safety_witness :
    free_event_list ⟨[], [⟨0, [], 0⟩, ⟨1, [], 0⟩, ⟨2, [], 0⟩, ⟨3, [], 0⟩, ⟨4, [], 0⟩], 1, 1⟩
        = some (fevOut ⟨[], [⟨0, [], 0⟩, ⟨1, [], 0⟩, ⟨2, [], 0⟩, ⟨3, [], 0⟩, ⟨4, [], 0⟩], 1, 1⟩)
    ∧ (fevOut ⟨[], [⟨0, [], 0⟩, ⟨1, [], 0⟩, ⟨2, [], 0⟩, ⟨3, [], 0⟩, ⟨4, [], 0⟩], 1, 1⟩).2.1
        ≤ HCI_READ_PACKET_NUM_MAX / 2 :=
  free_event_list_safety
    ⟨[], [⟨0, [], 0⟩, ⟨1, [], 0⟩, ⟨2, [], 0⟩, ⟨3, [], 0⟩, ⟨4, [], 0⟩], 1, 1⟩ (by decide)

/-- C5 counterexample input: the reachable state right after the first
HCI_Init followed by one reader drain that queued one valid packet. -/
def c5state : HciState := drainState [[4, 153, 0]] (HCI_Init bootState)

/-- C5 counterexample: c5state is reachable, yet a second HCI_Init does
not leave the receive queue unchanged — it wipes it (the claim asserts
the state is left as it was for every reachable state). -/
theorem hci_init_idempotence_counterexample :
    Reachable c5state ∧ (HCI_Init c5state).rxQueue ≠ c5state.rxQueue :=
  ⟨Reachable.drain [[4, 153, 0]] Reachable.boot, by decide⟩

/-- C5 amended: every reachable state has a live reader task
(threadPid ≠ -1), and a second HCI_Init (any call with the task
already created) spawns no new task and resets — rather than
preserves — the pool to all five buffers and the receive queue to
empty. -/
theorem hci_init_idempotence_amended :
    (∀ s : HciState, Reachable s → s.threadPid ≠ -1)
    ∧ (∀ s : HciState, s.threadPid ≠ -1 →
        (HCI_Init s).threadsSpawned = s.threadsSpawned
        ∧ (HCI_Init s).threadPid = s.threadPid
        ∧ (HCI_Init s).pool = hciReadPacketBuffer
        ∧ (HCI_Init s).rxQueue = []) := by
  constructor
  · exact fun _ h => reachable_pid h
  · intro s h
    unfold HCI_Init
    rw [if_neg h]
    exact ⟨rfl, rfl, rfl, rfl⟩

/-- C5 amended witness: the second HCI_Init applied at c5state. -/
theorem hci_init_idempotence_amended_witness :
    (HCI_Init c5state).threadsSpawned = c5state.threadsSpawned
    ∧ (HCI_Init c5state).threadPid = c5state.threadPid
    ∧ (HCI_Init c5state).pool = hciReadPacketBuffer
    ∧ (HCI_Init c5state).rxQueue = [] :=
  hci_init_idempotence_amended.2 c5state (by decide)

/-- Any trace free_event_list_loop actually produces is depth-neutral:
scanning it at a masked depth leaves the depth unchanged and legal. -/
lemma fel_loop_trace_shape : ∀ (fuel : Nat) (s s2 : HciState) (k : Nat) (tr : List Act),
    free_event_list_loop fuel s = some (s2, k, tr) →
    ∀ (d : Nat) (ys : List Act), d ≠ 0 →
      disciplinedFrom d (tr ++ ys) = disciplinedFrom d ys := by
  intro fuel
  induction fuel with
  | zero =>
    intro s s2 k tr h
    exact absurd h (by simp [free_event_list_loop])
  | succ n ih =>
    intro s s2 k tr h d ys hd
    rw [free_event_list_loop] at h
    split at h
    · cases hrx : s.rxQueue with
      | nil =>
        rw [hrx] at h
        simp at h
      | cons p rest =>
        rw [hrx] at h
        simp only at h
        cases hrec : free_event_list_loop n
            { s with pool := s.pool ++ [p], rxQueue := rest } with
        | none =>
          rw [hrec] at h
          simp at h
        | some o2 =>
          obtain ⟨s3, k3, tr3⟩ := o2
          rw [hrec] at h
          injection h with h2
          injection h2 with ha hb
          injection hb with hb hc
          rw [← hc]
          simp only [List.cons_append, disciplinedFrom, List.append_eq]
          rw [ih { s with pool := s.pool ++ [p], rxQueue := rest } s3 k3 tr3 hrec d ys hd]
          simp [hd]
    · injection h with h2
      injection h2 with ha hb
      injection hb with hb hc
      rw [← hc]
      simp

/-- Any trace free_event_list actually produces returns notification
depth 0 to 0 cleanly, so a disciplined continuation stays disciplined. -/
lemma fev_trace_neutral (s : HciState) (s1 : HciState) (k : Nat) (ftr : List Act)
    (h : free_event_list s = some (s1, k, ftr)) (ys : List Act) :
    disciplinedFrom 0 (ftr ++ ys) = disciplinedFrom 0 ys := by
  unfold free_event_list at h
  cases hl : free_event_list_loop HCI_READ_PACKET_NUM_MAX s with
  | none =>
    rw [hl] at h
    simp at h
  | some o2 =>
    obtain ⟨s2, k2, tr⟩ := o2
    rw [hl] at h
    injection h with h2
    injection h2 with ha hb
    injection hb with hb hc
    rw [← hc]
    simp only [List.cons_append, disciplinedFrom, List.append_assoc, List.append_eq,
               Nat.zero_add, List.nil_append]
    rw [fel_loop_trace_shape HCI_READ_PACKET_NUM_MAX s s2 k2 tr hl 1
        (Act.enable :: ys) (by omega)]
    simp [disciplinedFrom]

/-- C6 counterexample: a synchronous hci_send_req that sets one
non-matching packet aside and then times out.  On the timeout exit the
code splices the temp queue back into the shared receive queue with
notifications enabled and issues an Enable_SPI_IRQ with no matching
Disable, so its action trace violates the masking discipline the claim
asserts for every path. -/
theorem hci_critical_section_counterexample :
    (hci_send_req ⟨1, 2, 2, 2⟩ 10 false
        ⟨[⟨1, [], 0⟩, ⟨2, [], 0⟩], [⟨0, [9], 1⟩], 1, 1⟩).map
      (fun res => disciplinedFrom 0 res.trace) = some false := by
  decide

/-- C6 amended: HCI_Process and free_event_list observe the discipline
on every path, and hci_send_req observes it on every path except the
timeout exit: its trace is disciplined exactly when the exit reason is
not timeout (every timeout exit performs the temp-queue splice-back
unmasked, when non-empty, and ends with an unmatched Enable_SPI_IRQ). -/
theorem hci_critical_section_amended :
    (∀ s : HciState, disciplinedFrom 0 (HCI_Process s).2 = true)
    ∧ (∀ (s s1 : HciState) (k : Nat) (ftr : List Act),
        free_event_list s = some (s1, k, ftr) → disciplinedFrom 0 ftr = true)
    ∧ (∀ (r : HciRequest) (dto : Int) (async : Bool) (s : HciState) (res : SendResult),
        hci_send_req r dto async s = some res →
          disciplinedFrom 0 res.trace = (res.reason != ExitReason.timeout)) := by
  refine ⟨?_, ?_, ?_⟩
  · intro s
    unfold HCI_Process
    simp only [disciplinedFrom]
    exact processAux_disc s.rxQueue s.pool
  · intro s s1 k ftr h
    have := fev_trace_neutral s s1 k ftr h []
    rw [List.append_nil] at this
    rw [this]
    rfl
  · intro r dto async s res h
    cases async with
    | true =>
      unfold hci_send_req at h
      cases hfev : free_event_list s with
      | none =>
        rw [hfev] at h
        simp at h
      | some o =>
        obtain ⟨s1, k, ftr⟩ := o
        rw [hfev] at h
        injection h with h2
        rw [← h2]
        simp only
        have := fev_trace_neutral s s1 k ftr hfev []
        rw [List.append_nil] at this
        rw [this]
        rfl
    | false =>
      obtain ⟨s1, k, ftr, hfev, hfo, hres⟩ := hci_send_req_sync_spec r dto s res h
      rw [hres]
      simp only
      rw [fev_trace_neutral s s1 k ftr hfev]
      rw [sendReqLoop_disc]

/-- C6 amended witness input result: the set-aside-then-timeout run. -/
def c6res : SendResult :=
  (hci_send_req ⟨1, 2, 2, 2⟩ 10 false
    ⟨[⟨1, [], 0⟩, ⟨2, [], 0⟩], [⟨0, [9], 1⟩], 1, 1⟩).getD sendResultDefault

/-- C6 amended witness: the discipline-iff-non-timeout equivalence at
the concrete run. -/
theorem hci_critical_section_amended_witness :
    disciplinedFrom 0 c6res.trace = (c6res.reason != ExitReason.timeout) :=
  hci_critical_section_amended.2.2 ⟨1, 2, 2, 2⟩ 10 false
    ⟨[⟨1, [], 0⟩, ⟨2, [], 0⟩], [⟨0, [9], 1⟩], 1, 1⟩ c6res (by decide)

/-- C7 counterexample: with a negative configured timeout (-1), a
synchronous hci_send_req on an empty queue returns Timeout after 0 time
units: the `if(to == 0) to = 1;` fix-up does not apply to negative
values, contradicting the claim that the armed deadline is at least 1
whenever the configured value is zero or negative. -/
theorem hci_min_timeout_counterexample :
    (hci_send_req ⟨0, 0, 0, 0⟩ (-1) false (HCI_Init bootState)).map
      (fun res => (res.reason, res.exitTime)) = some (ExitReason.timeout, 0) := by
  decide

/-- C7 amended: the minimum-timeout fix-up applies exactly to a
configured value of 0 (bumped to 1, so a timeout return waits at least
1 time unit); a negative configured value is armed unchanged. -/
theorem hci_min_timeout_amended :
    effective_timeout 0 = 1
    ∧ (∀ t : Int, t < 0 → effective_timeout t = t)
    ∧ (∀ (r : HciRequest) (s : HciState) (res : SendResult),
        hci_send_req r 0 false s = some res →
          res.reason = ExitReason.timeout → 1 ≤ res.exitTime) := by
  refine ⟨rfl, ?_, ?_⟩
  · intro t ht
    unfold effective_timeout
    rw [if_neg (by omega)]
  · intro r s res h hto
    obtain ⟨s1, k, ftr, hfev, hfo, hres⟩ := hci_send_req_sync_spec r 0 s res h
    rw [hres] at hto ⊢
    have hle := sendReqLoop_timeout_time (cmd_opcode_pack r.ogf r.ocf) r.event r.rlen
      (effective_timeout 0) (by decide) s1.rxQueue s1.pool [] 0 hto
    exact hle

/-- C7 amended witness input result: configured timeout 0, empty queue. -/
def c7res : SendResult :=
  (hci_send_req ⟨0, 0, 0, 0⟩ 0 false (HCI_Init bootState)).getD sendResultDefault

/-- C7 amended witness: negative values pass through, and the
zero-bumped-to-one call waits at least one time unit. -/
theorem hci_min_timeout_amended_witness :
    effective_timeout (-5) = -5 ∧ 1 ≤ c7res.exitTime :=
  ⟨hci_min_timeout_amended.2.1 (-5) (by decide),
   hci_min_timeout_amended.2.2 ⟨0, 0, 0, 0⟩ (HCI_Init bootState) c7res
     (by decide) (by decide)⟩

/-- C8: response truncation.  Whenever a synchronous hci_send_req
succeeds, the length written back to the caller is
min(available payload length, caller capacity r->rlen) and the output
is exactly that prefix of the available payload; in particular the
spec's Scenario 1 (command (1,2), Command Complete with payload
[0xAA,0xBB,0xCC,0xDD] = [170,187,204,221], capacity 2) succeeds with
output [170,187]. -/
theorem hci_response_truncation :
    (∀ (r : HciRequest) (dto : Int) (s : HciState) (res : SendResult),
        hci_send_req r dto false s = some res →
          res.reason = ExitReason.matched →
            res.ret = 0
            ∧ res.rlenOut = min res.availLen r.rlen
            ∧ res.rparam = res.availBytes.take res.rlenOut.toNat)
    ∧ (hci_send_req ⟨1, 2, 0, 2⟩ 10 false
          ⟨[⟨1, [], 0⟩, ⟨2, [], 0⟩],
           [⟨0, [4, 14, 7, 1, 2, 4, 170, 187, 204, 221], 10⟩], 1, 1⟩).map
        (fun res => (res.ret, res.rparam)) = some (0, [170, 187]) := by
  constructor
  · intro r dto s res h hm
    obtain ⟨s1, k, ftr, hfev, hfo, hres⟩ := hci_send_req_sync_spec r dto s res h
    rw [hres] at hm ⊢
    exact sendReqLoop_matched (cmd_opcode_pack r.ogf r.ocf) r.event r.rlen
      (effective_timeout dto) s1.rxQueue s1.pool [] 0 hm
  · decide

/-- C8 witness input: Scenario 1's state. -/
def c8state : HciState :=
  ⟨[⟨1, [], 0⟩, ⟨2, [], 0⟩],
   [⟨0, [4, 14, 7, 1, 2, 4, 170, 187, 204, 221], 10⟩], 1, 1⟩

/-- C8 witness result. -/
def c8res : SendResult :=
  (hci_send_req ⟨1, 2, 0, 2⟩ 10 false c8state).getD sendResultDefault

/-- C8 witness: truncation conclusions at Scenario 1. -/
theorem hci_response_truncation_witness :
    c8res.ret = 0 ∧ c8res.rlenOut = min c8res.availLen 2
    ∧ c8res.rparam = c8res.availBytes.take c8res.rlenOut.toNat :=
  hci_response_truncation.1 ⟨1, 2, 0, 2⟩ 10 c8state c8res (by decide) (by decide)

/-- C9: hardware-error abort.  First conjunct: at any point of the
polling loop (any pool, temp queue, expected event and remaining
queue), dequeuing a Hardware Error event packet with the timer not yet
expired makes the loop return -1 immediately with the DeviceFatal
cause: nothing further is dequeued, nothing is set aside, the packet
goes back to the pool head and the temp queue is spliced back.  Second
conjunct: the same at the hci_send_req level when the head of the
post-eviction receive queue is a Hardware Error event. -/
theorem hci_hardware_error_abort :
    (∀ (op ev : Nat) (cap tmo : Int) (pool temp rest : List HciPacket)
        (p : HciPacket) (el : Nat),
      byteAt p.dataBuff 0 = HCI_EVENT_PKT →
      byteAt p.dataBuff 1 = EVT_HARDWARE_ERROR →
      (el : Int) < tmo →
        (sendReqLoop op ev cap tmo pool temp (p :: rest) el).ret = -1
        ∧ (sendReqLoop op ev cap tmo pool temp (p :: rest) el).reason = ExitReason.hwError
        ∧ (sendReqLoop op ev cap tmo pool temp (p :: rest) el).remaining = rest
        ∧ (sendReqLoop op ev cap tmo pool temp (p :: rest) el).setAside = []
        ∧ (sendReqLoop op ev cap tmo pool temp (p :: rest) el).consumed = 1
        ∧ (sendReqLoop op ev cap tmo pool temp (p :: rest) el).pool = p :: pool
        ∧ (sendReqLoop op ev cap tmo pool temp (p :: rest) el).rxQueue = temp ++ rest)
    ∧ (∀ (r : HciRequest) (dto : Int) (s : HciState) (res : SendResult)
        (p : HciPacket) (rest : List HciPacket),
      hci_send_req r dto false s = some res →
      (fevOut s).1.rxQueue = p :: rest →
      byteAt p.dataBuff 0 = HCI_EVENT_PKT →
      byteAt p.dataBuff 1 = EVT_HARDWARE_ERROR →
      0 < effective_timeout dto →
        res.ret = -1 ∧ res.reason = ExitReason.hwError
        ∧ res.remaining = rest ∧ res.setAside = []) := by
  constructor
  · intro op ev cap tmo pool temp rest p el h0 h1 ht
    rw [sendReqLoop_hwError op ev cap tmo pool temp rest p el h0 h1 ht]
    exact ⟨rfl, rfl, rfl, rfl, rfl, rfl, move_list_eq rest temp⟩
  · intro r dto s res p rest h hq h0 h1 ht
    obtain ⟨s1, k, ftr, hfev, hfo, hres⟩ := hci_send_req_sync_spec r dto s res h
    rw [hfo] at hq
    simp only at hq
    rw [hres]
    simp only
    rw [hq, sendReqLoop_hwError (cmd_opcode_pack r.ogf r.ocf) r.event r.rlen
      (effective_timeout dto) s1.pool [] rest p 0 h0 h1 (by exact_mod_cast ht)]
    exact ⟨rfl, rfl, rfl, rfl⟩

/-- C9 witness input: a Hardware Error event at the queue head while a
Meta sub-event (code 5) is awaited, with another packet behind it. -/
def c9state : HciState :=
  ⟨[⟨1, [], 0⟩, ⟨2, [], 0⟩], [⟨0, [4, 16, 0], 3⟩, ⟨3, [9], 1⟩], 1, 1⟩

/-- C9 witness result. -/
def c9res : SendResult :=
  (hci_send_req ⟨1, 2, 5, 2⟩ 10 false c9state).getD sendResultDefault

/-- C9 witness: immediate DeviceFatal at the concrete run. -/
theorem hci_hardware_error_abort_witness :
    c9res.ret = -1 ∧ c9res.reason = ExitReason.hwError
    ∧ c9res.remaining = [⟨3, [9], 1⟩] ∧ c9res.setAside = [] :=
  hci_hardware_error_abort.2 ⟨1, 2, 5, 2⟩ 10 c9state c9res ⟨0, [4, 16, 0], 3⟩
    [⟨3, [9], 1⟩] (by decide) (by decide) (by decide) (by decide) (by decide)
